import Mathlib

/-!
Shallow embedding of the shift-scheduling core (helpers.ts, ShiftModal.tsx,
WeeklyCalendar.tsx, App component).

Representation choices:
* an HH:mm time is represented by its minutes since midnight (a Nat);
  lexicographic comparison of well-formed fixed-width HH:mm strings coincides
  with numeric comparison of these minute values, and date-fns parse of HH:mm
  produces timestamps on a single reference day whose ordering and differences
  agree with minutes since midnight;
* a YYYY-MM-DD calendar date is represented by its civil day number (an Int,
  days since 1970-01-01); parseISO, addDays, differenceInDays, startOfWeek and
  isSameWeek of date-fns act on this representation exactly as the functions
  below;
* JS numbers holding decimal hours and percentages are represented by Rat.
-/

namespace Schedule

/-- JS Math.round: round half toward positive infinity. -/
def jsRound (q : ℚ) : ℤ := ⌊q + 1 / 2⌋

/-- Rounding to 2 decimal places, as produced by parseFloat(x.toFixed(2))
for the non-negative arguments arising here. -/
def roundTwo (q : ℚ) : ℚ := (jsRound (q * 100) : ℚ) / 100

/-- helpers.ts calculateShiftHours: difference of the two HH:mm times in
minutes, wrapped by +24h when negative, divided by 60 and rounded to two
decimal places. Arguments are minutes since midnight. -/
def calculateShiftHours (s e : ℕ) : ℚ :=
  let diff : ℤ := (e : ℤ) - (s : ℤ)
  let diff := if diff < 0 then diff + 1440 else diff
  roundTwo ((diff : ℚ) / 60)

/-- types.ts Shift: date is a civil day number, times are minutes since
midnight, hours is the stored decimal-hours field. -/
structure Shift where
  id : String
  employeeId : String
  date : ℤ
  startTime : ℕ
  endTime : ℕ
  hours : ℚ
deriving DecidableEq, Repr

/-- A TypeScript Partial of Shift as consumed by checkOverlap: any field may
be absent (undefined). -/
structure CandidateShift where
  id : Option String := none
  employeeId : Option String := none
  date : Option ℤ := none
  startTime : Option ℕ := none
  endTime : Option ℕ := none
deriving DecidableEq, Repr

/-- The candidate record built from a full shift (all fields present). -/
def candidateOf (s : Shift) : CandidateShift :=
  { id := some s.id, employeeId := some s.employeeId, date := some s.date,
    startTime := some s.startTime, endTime := some s.endTime }

/-- helpers.ts checkOverlap: false when any of employeeId/date/startTime/
endTime is missing; otherwise filters the existing shifts to the same
employee and date, excluding any whose id equals the candidate id, and
reports a conflict when some remaining shift satisfies
nStart < sEnd AND nEnd > sStart. -/
def checkOverlap (shifts : List Shift) (newShift : CandidateShift) : Bool :=
  match newShift.employeeId, newShift.date, newShift.startTime, newShift.endTime with
  | some eid, some d, some nStart, some nEnd =>
    let employeeShifts := shifts.filter fun s =>
      decide (s.employeeId = eid ∧ s.date = d ∧ newShift.id ≠ some s.id)
    employeeShifts.any fun s => decide (nStart < s.endTime ∧ nEnd > s.startTime)
  | _, _, _, _ => false

/-- Outcome of ShiftModal.tsx handleSubmit. -/
inductive SubmitResult where
  | errEmptySelection
  | errInvalidRange
  | errConflict
  | saved (s : Shift)
deriving DecidableEq, Repr

/-- ShiftModal.tsx handleSubmit: reject when no employee is chosen; compute
hours and reject when hours <= 0; build the new shift (keeping the edited
shift id, else a fresh one); reject on overlap; otherwise invoke onSave. -/
def handleSubmit (shifts : List Shift) (editingId : Option String) (freshId : String)
    (employeeId : String) (date : ℤ) (startTime endTime : ℕ) : SubmitResult :=
  if employeeId = "" then .errEmptySelection
  else
    let hours := calculateShiftHours startTime endTime
    if hours ≤ 0 then .errInvalidRange
    else
      let newShift : Shift :=
        { id := editingId.getD freshId, employeeId := employeeId, date := date,
          startTime := startTime, endTime := endTime, hours := hours }
      if checkOverlap shifts (candidateOf newShift) then .errConflict
      else .saved newShift

/-- The single-shift clipboard template (App onCopy): employeeId and times
only, no date and no id. -/
structure CopiedShift where
  employeeId : String
  startTime : ℕ
  endTime : ℕ
deriving DecidableEq, Repr

/-- The field set written by a create request (addDoc payload: no id). -/
structure NewShiftData where
  employeeId : String
  date : ℤ
  startTime : ℕ
  endTime : ℕ
  hours : ℚ
deriving DecidableEq, Repr

/-- App handlePasteShift: nothing happens without a clipboard template;
otherwise the candidate is built for the target date, checked for overlap
with a temporary id, and the create payload is emitted only when no conflict
is reported. -/
def handlePasteShift (shifts : List Shift) (copied : Option CopiedShift)
    (date : ℤ) : Option NewShiftData :=
  match copied with
  | none => none
  | some c =>
    let newShiftData : NewShiftData :=
      { employeeId := c.employeeId, date := date, startTime := c.startTime,
        endTime := c.endTime, hours := calculateShiftHours c.startTime c.endTime }
    if checkOverlap shifts
        { id := some "temp-check", employeeId := some c.employeeId,
          date := some date, startTime := some c.startTime,
          endTime := some c.endTime } then
      none
    else
      some newShiftData

/-- WeeklyCalendar.tsx handleGlobalMouseUp, Interacting branch: look up the
original of the live candidate by id; when found and the start or end time
changed, emit the update request with the candidate, else nothing. -/
def dragCommit (shifts : List Shift) (tempShift : Shift) : Option Shift :=
  match shifts.find? fun s => decide (s.id = tempShift.id) with
  | some original =>
    if original.startTime ≠ tempShift.startTime ∨ original.endTime ≠ tempShift.endTime
    then some tempShift else none
  | none => none

/-- Civil day number (days since 1970-01-01) of a Gregorian date, the value
date-fns parseISO associates to a YYYY-MM-DD string (Hinnant day-count
algorithm; Int division here truncates, which agrees with floor on the
non-negative intermediate values produced for CE dates). -/
def daysFromCivil (y m d : ℤ) : ℤ :=
  let y := if m ≤ 2 then y - 1 else y
  let era := (if 0 ≤ y then y else y - 399) / 400
  let yoe := y - era * 400
  let mp := (m + 9) % 12
  let doy := (153 * mp + 2) / 5 + d - 1
  let doe := yoe * 365 + yoe / 4 - yoe / 100 + doy
  era * 146097 + doe - 719468

/-- Day of week, Sunday = 0 (1970-01-01 was a Thursday). -/
def dayOfWeek (d : ℤ) : ℤ := (d + 4) % 7

/-- date-fns startOfWeek with weekStartsOn 0: the preceding (or same) Sunday. -/
def startOfWeek (d : ℤ) : ℤ := d - dayOfWeek d

/-- date-fns isSameWeek with weekStartsOn 0. -/
def isSameWeek (a b : ℤ) : Bool := decide (startOfWeek a = startOfWeek b)

/-- App handlePasteWeek, batch-construction part: normalize both week
references to their Sunday, collect the shifts of the source week via the
same-week test, and build one create payload per collected shift at the
source date shifted by the day difference of the two week starts, with
identical employeeId, times and hours. -/
def handlePasteWeek (shifts : List Shift) (copiedWeekDate targetWeekStart : ℤ) :
    List NewShiftData :=
  let sourceStart := startOfWeek copiedWeekDate
  let targetStart := startOfWeek targetWeekStart
  let shiftsToCopy := shifts.filter fun s => isSameWeek s.date sourceStart
  let daysDiff := targetStart - sourceStart
  shiftsToCopy.map fun s =>
    { employeeId := s.employeeId, date := s.date + daysDiff,
      startTime := s.startTime, endTime := s.endTime, hours := s.hours }

/-- The stable ascending sort by start time performed by
dayShifts.sort(localeCompare on startTime) in renderShiftsForDay
(JS Array.prototype.sort is stable; on well-formed HH:mm strings the
comparator orders by minutes since midnight). -/
def sortByStart (l : List Shift) : List Shift :=
  l.insertionSort fun a b => a.startTime ≤ b.startTime

/-- renderShiftsForDay column placement of one shift: the first column whose
last shift ends no later than this shift starts receives it at its end;
otherwise a new singleton column is appended. -/
def placeShift (s : Shift) : List (List Shift) → List (List Shift)
  | [] => [[s]]
  | col :: rest =>
    if ((col.getLast?).getD s).endTime ≤ s.startTime then (col ++ [s]) :: rest
    else col :: placeShift s rest

/-- renderShiftsForDay column packing: sort the day's shifts by start time
(stably), then place each in order. -/
def packColumns (dayShifts : List Shift) : List (List Shift) :=
  (sortByStart dayShifts).foldl (fun cols s => placeShift s cols) []

/-- renderShiftsForDay width of every shift of the day, in percent. -/
def shiftWidth (dayShifts : List Shift) : ℚ := 100 / (packColumns dayShifts).length

/-- WeeklyCalendar layout constants. -/
def START_HOUR : ℚ := 8

def END_HOUR : ℚ := 23

def TOTAL_HOURS : ℚ := END_HOUR - START_HOUR

def VERTICAL_PADDING : ℚ := 12

/-- 60 / SNAP_MINUTES with SNAP_MINUTES = 30. -/
def snapParts : ℚ := 2

/-- A JavaScript number as handled by the grid mapper and the drag-session
bookkeeping: a finite value, a signed infinity, or NaN. Finite arithmetic is
exact (as everywhere else in this development); the special values follow
JS/IEEE semantics, which matter here because a container height equal to the
total vertical padding makes the mapper divide by zero. -/
inductive JSNum where
  | nan
  | posInf
  | negInf
  | fin (q : ℚ)
deriving DecidableEq, Repr

/-- JS division of two finite numbers: a finite quotient when the divisor is
nonzero, otherwise a signed infinity, and NaN for 0 / 0. -/
def jsDiv (a b : ℚ) : JSNum :=
  if b = 0 then
    if 0 < a then .posInf else if a < 0 then .negInf else .nan
  else .fin (a / b)

/-- JS multiplication by a finite constant. -/
def JSNum.mulC (x : JSNum) (c : ℚ) : JSNum :=
  match x with
  | .nan => .nan
  | .posInf => if 0 < c then .posInf else if c < 0 then .negInf else .nan
  | .negInf => if 0 < c then .negInf else if c < 0 then .posInf else .nan
  | .fin q => .fin (q * c)

/-- JS addition of a finite constant. -/
def JSNum.addC (x : JSNum) (c : ℚ) : JSNum :=
  match x with
  | .nan => .nan
  | .posInf => .posInf
  | .negInf => .negInf
  | .fin q => .fin (q + c)

/-- JS division by a finite constant. -/
def JSNum.divC (x : JSNum) (c : ℚ) : JSNum :=
  match x with
  | .nan => .nan
  | .posInf => if 0 < c then .posInf else if c < 0 then .negInf else .nan
  | .negInf => if 0 < c then .negInf else if c < 0 then .posInf else .nan
  | .fin q =>
    if c = 0 then (if 0 < q then .posInf else if q < 0 then .negInf else .nan)
    else .fin (q / c)

/-- JS Math.round: NaN and the infinities pass through. -/
def jsRoundNum (x : JSNum) : JSNum :=
  match x with
  | .nan => .nan
  | .posInf => .posInf
  | .negInf => .negInf
  | .fin q => .fin ((jsRound q : ℤ) : ℚ)

/-- JS Math.min: returns NaN when either argument is NaN. -/
def jsMin (a b : JSNum) : JSNum :=
  match a, b with
  | .nan, _ => .nan
  | _, .nan => .nan
  | .negInf, _ => .negInf
  | _, .negInf => .negInf
  | .posInf, x => x
  | x, .posInf => x
  | .fin p, .fin q => .fin (min p q)

/-- JS Math.max: returns NaN when either argument is NaN. -/
def jsMax (a b : JSNum) : JSNum :=
  match a, b with
  | .nan, _ => .nan
  | _, .nan => .nan
  | .posInf, _ => .posInf
  | _, .posInf => .posInf
  | .negInf, x => x
  | x, .negInf => x
  | .fin p, .fin q => .fin (max p q)

/-- JS subtraction of two numbers. -/
def jsSub (a b : JSNum) : JSNum :=
  match a, b with
  | .nan, _ => .nan
  | _, .nan => .nan
  | .posInf, .posInf => .nan
  | .posInf, _ => .posInf
  | .negInf, .negInf => .nan
  | .negInf, _ => .negInf
  | .fin _, .posInf => .negInf
  | .fin _, .negInf => .posInf
  | .fin p, .fin q => .fin (p - q)

/-- JS <= on numbers: false whenever either side is NaN. -/
def jsLe (a b : JSNum) : Bool :=
  match a, b with
  | .nan, _ => false
  | _, .nan => false
  | .negInf, _ => true
  | _, .posInf => true
  | .posInf, _ => false
  | _, .negInf => false
  | .fin p, .fin q => decide (p ≤ q)

/-- JS strict equality on numbers: NaN is equal to nothing, including
itself; otherwise value equality. -/
def jsStrictEq (a b : JSNum) : Bool :=
  match a, b with
  | .nan, _ => false
  | _, .nan => false
  | a, b => decide (a = b)

/-- WeeklyCalendar.tsx getHourFromY: linear map of the padded vertical offset
onto [8, 23], snapped to the half hour, clamped into [8, 23] — with JS number
semantics, so a container height equal to the 24px of vertical padding makes
usableHeight zero and the division produce an infinity, or NaN at the exact
padding offset. -/
def getHourFromY (y height : ℚ) : JSNum :=
  let usableHeight := height - VERTICAL_PADDING * 2
  let relativeY := y - VERTICAL_PADDING
  let hourFloat := ((jsDiv relativeY usableHeight).mulC TOTAL_HOURS).addC START_HOUR
  let hour := (jsRoundNum (hourFloat.mulC snapParts)).divC snapParts
  jsMax (.fin START_HOUR) (jsMin (.fin END_HOUR) hour)

/-- The three Interacting drag kinds of WeeklyCalendar. -/
inductive InteractionType where
  | move
  | resizeTop
  | resizeBottom
deriving DecidableEq, Repr

/-- WeeklyCalendar.tsx handleMouseMove, Interacting branch: the new start and
end hours of the live candidate, per interaction kind, then clamped —
start into [START_HOUR, END_HOUR - 0.5] and end into
[start + 0.5, END_HOUR]. -/
def computeDrag (t : InteractionType) (initStart initEnd currentHour offset : ℚ) :
    ℚ × ℚ :=
  let se : ℚ × ℚ :=
    match t with
    | .resizeTop => (min currentHour (initEnd - 1 / 2), initEnd)
    | .resizeBottom => (initStart, max currentHour (initStart + 1 / 2))
    | .move =>
      let duration := initEnd - initStart
      let s := currentHour - offset
      (s, s + duration)
  let newStart := max START_HOUR (min (END_HOUR - 1 / 2) se.1)
  let newEnd := max (newStart + 1 / 2) (min END_HOUR se.2)
  (newStart, newEnd)

/-- The create requests a completed Selecting session can emit:
onAddShift with times, or onAddShift with the bare date. -/
inductive CreateEmission where
  | withTimes (s e : JSNum)
  | dateOnly
deriving DecidableEq, Repr

/-- WeeklyCalendar.tsx handleGlobalMouseUp, Selecting branch: with times when
the extent reaches half an hour (end - start >= 0.5, a JS comparison that is
false on NaN), bare date when the two recorded hours are strictly equal (also
false on NaN), nothing otherwise. The recorded hours are getHourFromY
results, hence JS numbers. -/
def selectingMouseUp (dragStartHour dragCurrentHour : JSNum) : Option CreateEmission :=
  let s := jsMin dragStartHour dragCurrentHour
  let e := jsMax dragStartHour dragCurrentHour
  if jsLe (.fin (1 / 2)) (jsSub e s) then some (.withTimes s e)
  else if jsStrictEq dragStartHour dragCurrentHour then some .dateOnly
  else none

/-! ## Helper lemmas -/

theorem jsRound_eq (q : ℚ) (k : ℤ) (h₁ : (k : ℚ) ≤ q + 1 / 2) (h₂ : q + 1 / 2 < k + 1) :
    jsRound q = k := by
  unfold jsRound
  exact Int.floor_eq_iff.mpr ⟨h₁, by exact_mod_cast h₂⟩

theorem jsRound_mono {p q : ℚ} (h : p ≤ q) : jsRound p ≤ jsRound q := by
  unfold jsRound
  exact Int.floor_le_floor (by linarith)

theorem startOfWeek_idem (d : ℤ) : startOfWeek (startOfWeek d) = startOfWeek d := by
  simp only [startOfWeek, dayOfWeek]
  omega

/-! ## C1: conflict detection -/

/-- C1: checkOverlap is true exactly when some existing shift with the same
employeeId and date, and an id different from the candidate id, overlaps the
candidate strictly (candidateStart < existingEnd and candidateEnd >
existingStart in minutes since midnight); with any of employeeId, date,
startTime or endTime missing the result is false; against a 09:00-12:00
shift of the same employee and date an 11:00-13:00 candidate conflicts and a
12:00-14:00 candidate does not. -/
theorem checkOverlap_spec :
    (∀ (shifts : List Shift) (i : Option String) (eid : String) (d : ℤ) (ns ne : ℕ),
      checkOverlap shifts
          { id := i, employeeId := some eid, date := some d,
            startTime := some ns, endTime := some ne } = true ↔
        ∃ s ∈ shifts, s.employeeId = eid ∧ s.date = d ∧ i ≠ some s.id ∧
          ns < s.endTime ∧ s.startTime < ne) ∧
    (∀ (shifts : List Shift) (n : CandidateShift),
      n.employeeId = none ∨ n.date = none ∨ n.startTime = none ∨ n.endTime = none →
        checkOverlap shifts n = false) ∧
    checkOverlap
      [{ id := "x", employeeId := "E", date := 0, startTime := 540, endTime := 720, hours := 3 }]
      { id := some "n", employeeId := some "E", date := some 0,
        startTime := some 660, endTime := some 780 } = true ∧
    checkOverlap
      [{ id := "x", employeeId := "E", date := 0, startTime := 540, endTime := 720, hours := 3 }]
      { id := some "n", employeeId := some "E", date := some 0,
        startTime := some 720, endTime := some 840 } = false := by
  refine ⟨?_, ?_, by decide, by decide⟩
  · intro shifts i eid d ns ne
    simp only [checkOverlap, List.any_eq_true, List.mem_filter, decide_eq_true_eq]
    constructor
    · rintro ⟨s, ⟨hmem, he, hd, hid⟩, hov⟩
      exact ⟨s, hmem, he, hd, hid, hov.1, hov.2⟩
    · rintro ⟨s, hmem, he, hd, hid, h1, h2⟩
      exact ⟨s, ⟨hmem, he, hd, hid⟩, h1, h2⟩
  · intro shifts n hn
    rcases n with ⟨i, eo, dd, st, et⟩
    cases eo <;> cases dd <;> cases st <;> cases et <;> simp_all [checkOverlap]

/-- Witness for the hypothesis-bearing part of checkOverlap_spec: a fully
missing candidate is reported conflict-free. -/
theorem checkOverlap_spec_witness :
    (({ } : CandidateShift).employeeId = none ∨ ({ } : CandidateShift).date = none ∨
      ({ } : CandidateShift).startTime = none ∨ ({ } : CandidateShift).endTime = none) ∧
    checkOverlap
      [{ id := "x", employeeId := "E", date := 0, startTime := 540, endTime := 720, hours := 3 }]
      { } = false :=
  ⟨Or.inl rfl, checkOverlap_spec.2.1 _ _ (Or.inl rfl)⟩

/-! ## C2: conflict gating of commits -/

/-- C2 counterexample: committing a move drag (handleGlobalMouseUp) emits the
update request even though checkOverlap reports a conflict of the moved
candidate against the current shift set — shift b moved onto 10:00-11:00
overlaps shift a (09:00-12:00, same employee and date) yet the update is
issued. -/
theorem dragCommit_skips_overlap :
    dragCommit
      [{ id := "a", employeeId := "E", date := 0, startTime := 540, endTime := 720, hours := 3 },
       { id := "b", employeeId := "E", date := 0, startTime := 780, endTime := 840, hours := 1 }]
      { id := "b", employeeId := "E", date := 0, startTime := 600, endTime := 660, hours := 1 } =
      some { id := "b", employeeId := "E", date := 0, startTime := 600, endTime := 660, hours := 1 } ∧
    checkOverlap
      [{ id := "a", employeeId := "E", date := 0, startTime := 540, endTime := 720, hours := 3 },
       { id := "b", employeeId := "E", date := 0, startTime := 780, endTime := 840, hours := 1 }]
      (candidateOf
        { id := "b", employeeId := "E", date := 0, startTime := 600, endTime := 660, hours := 1 }) =
      true := by
  exact ⟨by decide, by decide⟩

/-- C2 amended: the modal commit (handleSubmit, covering single-shift create
and update) and the single-shift paste run the conflict check before any
mutation is emitted — whenever they emit, checkOverlap on the emitted
candidate is false; the move/resize drag commit is not so gated. -/
theorem modal_and_paste_gated :
    (∀ (shifts : List Shift) (editingId : Option String) (freshId employeeId : String)
        (date : ℤ) (startTime endTime : ℕ) (s : Shift),
      handleSubmit shifts editingId freshId employeeId date startTime endTime = .saved s →
        checkOverlap shifts (candidateOf s) = false) ∧
    (∀ (shifts : List Shift) (copied : Option CopiedShift) (date : ℤ) (out : NewShiftData),
      handlePasteShift shifts copied date = some out →
        checkOverlap shifts
          { id := some "temp-check", employeeId := some out.employeeId,
            date := some out.date, startTime := some out.startTime,
            endTime := some out.endTime } = false) := by
  constructor
  · intro shifts editingId freshId employeeId date startTime endTime s h
    simp only [handleSubmit] at h
    by_cases h1 : employeeId = ""
    · rw [if_pos h1] at h
      exact absurd h (by simp)
    rw [if_neg h1] at h
    by_cases h2 : calculateShiftHours startTime endTime ≤ 0
    · rw [if_pos h2] at h
      exact absurd h (by simp)
    rw [if_neg h2] at h
    by_cases h3 : checkOverlap shifts (candidateOf
        { id := editingId.getD freshId, employeeId := employeeId, date := date,
          startTime := startTime, endTime := endTime,
          hours := calculateShiftHours startTime endTime }) = true
    · rw [if_pos h3] at h
      exact absurd h (by simp)
    rw [if_neg h3] at h
    simp only [SubmitResult.saved.injEq] at h
    subst h
    simpa using h3
  · intro shifts copied date out h
    cases copied with
    | none => simp [handlePasteShift] at h
    | some c =>
      simp only [handlePasteShift] at h
      by_cases h1 : checkOverlap shifts
          { id := some "temp-check", employeeId := some c.employeeId, date := some date,
            startTime := some c.startTime, endTime := some c.endTime } = true
      · rw [if_pos h1] at h
        exact absurd h (by simp)
      · rw [if_neg h1] at h
        simp only [Option.some.injEq] at h
        subst h
        simpa using h1

/-- Witness for modal_and_paste_gated: a concrete successful modal save whose
candidate the conflict check clears. -/
theorem modal_and_paste_gated_witness :
    handleSubmit [] none "f1" "e1" 0 540 1020 =
      .saved { id := "f1", employeeId := "e1", date := 0, startTime := 540,
               endTime := 1020, hours := 8 } ∧
    checkOverlap []
      (candidateOf { id := "f1", employeeId := "e1", date := 0, startTime := 540,
                     endTime := 1020, hours := 8 }) = false := by
  have hc : calculateShiftHours 540 1020 = 8 := by
    have h : jsRound (800 : ℚ) = 800 := by apply jsRound_eq <;> norm_num
    simp only [calculateShiftHours, roundTwo]
    norm_num [h]
  have hsub : handleSubmit [] none "f1" "e1" 0 540 1020 =
      .saved { id := "f1", employeeId := "e1", date := 0, startTime := 540,
               endTime := 1020, hours := 8 } := by
    simp only [handleSubmit, hc, Option.getD_none]
    rw [if_neg (by decide : ¬ ("e1" = ""))]
    rw [if_neg (by norm_num : ¬ (8 : ℚ) ≤ 0)]
    rw [if_neg (by decide : ¬ (checkOverlap [] (candidateOf
      { id := "f1", employeeId := "e1", date := 0, startTime := 540,
        endTime := 1020, hours := (8 : ℚ) }) = true))]
  exact ⟨hsub, modal_and_paste_gated.1 [] none "f1" "e1" 0 540 1020 _ hsub⟩

/-! ## C3: week paste -/

/-- C3: pasting a week builds, for exactly the shifts whose date lies in the
source week (weeks starting Sunday), one new shift each, dated the source
date plus the day difference of the two week starts, with the same
employeeId, times and hours; concretely, with source week starting
2024-01-07 and target week starting 2024-01-14, a shift dated 2024-01-09 is
pasted at 2024-01-16. -/
theorem handlePasteWeek_spec :
    (∀ (shifts : List Shift) (copiedWeekDate targetWeekStart : ℤ),
      handlePasteWeek shifts copiedWeekDate targetWeekStart =
        (shifts.filter fun s => decide (startOfWeek s.date = startOfWeek copiedWeekDate)).map
          fun s =>
            { employeeId := s.employeeId,
              date := s.date + (startOfWeek targetWeekStart - startOfWeek copiedWeekDate),
              startTime := s.startTime, endTime := s.endTime, hours := s.hours }) ∧
    handlePasteWeek
      [{ id := "s1", employeeId := "e1", date := daysFromCivil 2024 1 9,
         startTime := 540, endTime := 1020, hours := 8 }]
      (daysFromCivil 2024 1 7) (daysFromCivil 2024 1 14) =
      [{ employeeId := "e1", date := daysFromCivil 2024 1 16,
         startTime := 540, endTime := 1020, hours := 8 }] := by
  constructor
  · intro shifts copiedWeekDate targetWeekStart
    simp only [handlePasteWeek, isSameWeek, startOfWeek_idem]
  · decide

/-! ## C4: column packing -/

theorem placeShift_chains (s : Shift) (cols : List (List Shift))
    (h : ∀ c ∈ cols, List.Chain' (fun a b : Shift => a.endTime ≤ b.startTime) c) :
    ∀ c ∈ placeShift s cols, List.Chain' (fun a b : Shift => a.endTime ≤ b.startTime) c := by
  induction cols with
  | nil =>
    intro c hc
    simp only [placeShift, List.mem_singleton] at hc
    subst hc
    exact List.chain'_singleton _
  | cons col rest ih =>
    intro c hc
    simp only [placeShift] at hc
    by_cases hcond : ((col.getLast?).getD s).endTime ≤ s.startTime
    · rw [if_pos hcond] at hc
      rcases List.mem_cons.mp hc with rfl | hmem
      · rw [List.chain'_append]
        refine ⟨h col (by simp), List.chain'_singleton _, ?_⟩
        intro x hx y hy
        simp only [List.head?_cons, Option.mem_def, Option.some.injEq] at hy
        subst hy
        cases hcl : col.getLast? with
        | none => rw [hcl] at hx; simp at hx
        | some t =>
          rw [hcl] at hx
          simp only [Option.mem_def, Option.some.injEq] at hx
          subst hx
          rw [hcl] at hcond
          simpa using hcond
      · exact h c (List.mem_cons_of_mem _ hmem)
    · rw [if_neg hcond] at hc
      rcases List.mem_cons.mp hc with rfl | hmem
      · exact h c (by simp)
      · exact ih (fun c hc => h c (List.mem_cons_of_mem _ hc)) c hmem

theorem foldl_placeShift_chains (l : List Shift) (cols : List (List Shift))
    (h : ∀ c ∈ cols, List.Chain' (fun a b : Shift => a.endTime ≤ b.startTime) c) :
    ∀ c ∈ l.foldl (fun cs s => placeShift s cs) cols,
      List.Chain' (fun a b : Shift => a.endTime ≤ b.startTime) c := by
  induction l generalizing cols with
  | nil => simpa using h
  | cons s ss ih =>
    intro c hc
    exact ih (placeShift s cols) (placeShift_chains s cols h) c hc

/-- C4: on A(09:00-10:00), B(09:30-10:30), C(10:00-11:00) the packing yields
columns [[A,C],[B]], 2 columns in total, and a rendered width of
100 / 2 = 50 percent; in general the packing first sorts the day's shifts by
start time ascending (a stable sort, so a permutation sorted by startTime)
and every produced column is a chain of pairwise non-overlapping shifts,
each placed only where the previous one ends no later than it starts. -/
theorem packColumns_spec :
    packColumns
      [{ id := "A", employeeId := "E", date := 0, startTime := 540, endTime := 600, hours := 1 },
       { id := "B", employeeId := "E", date := 0, startTime := 570, endTime := 630, hours := 1 },
       { id := "C", employeeId := "E", date := 0, startTime := 600, endTime := 660, hours := 1 }] =
      [[{ id := "A", employeeId := "E", date := 0, startTime := 540, endTime := 600, hours := 1 },
        { id := "C", employeeId := "E", date := 0, startTime := 600, endTime := 660, hours := 1 }],
       [{ id := "B", employeeId := "E", date := 0, startTime := 570, endTime := 630, hours := 1 }]] ∧
    (packColumns
      [{ id := "A", employeeId := "E", date := 0, startTime := 540, endTime := 600, hours := 1 },
       { id := "B", employeeId := "E", date := 0, startTime := 570, endTime := 630, hours := 1 },
       { id := "C", employeeId := "E", date := 0, startTime := 600, endTime := 660, hours := 1 }]).length
      = 2 ∧
    shiftWidth
      [{ id := "A", employeeId := "E", date := 0, startTime := 540, endTime := 600, hours := 1 },
       { id := "B", employeeId := "E", date := 0, startTime := 570, endTime := 630, hours := 1 },
       { id := "C", employeeId := "E", date := 0, startTime := 600, endTime := 660, hours := 1 }]
      = 50 ∧
    (∀ l : List Shift,
      List.Sorted (fun a b : Shift => a.startTime ≤ b.startTime) (sortByStart l)) ∧
    (∀ l : List Shift, List.Perm (sortByStart l) l) ∧
    (∀ (l : List Shift) (c : List Shift), c ∈ packColumns l →
      List.Chain' (fun a b : Shift => a.endTime ≤ b.startTime) c) := by
  refine ⟨by decide, by decide, ?_, ?_, ?_, ?_⟩
  · have hl : (packColumns
        [{ id := "A", employeeId := "E", date := 0, startTime := 540, endTime := 600, hours := 1 },
         { id := "B", employeeId := "E", date := 0, startTime := 570, endTime := 630, hours := 1 },
         { id := "C", employeeId := "E", date := 0, startTime := 600, endTime := 660, hours := 1 }]).length
        = 2 := by decide
    simp only [shiftWidth, hl]
    norm_num
  · intro l
    haveI : IsTotal Shift fun a b : Shift => a.startTime ≤ b.startTime :=
      ⟨fun a b => Nat.le_total _ _⟩
    haveI : IsTrans Shift fun a b : Shift => a.startTime ≤ b.startTime :=
      ⟨fun _ _ _ => Nat.le_trans⟩
    exact List.sorted_insertionSort _ l
  · intro l
    exact List.perm_insertionSort _ l
  · intro l c hc
    exact foldl_placeShift_chains (sortByStart l) [] (by simp) c hc

/-- Witness for the hypothesis-bearing part of packColumns_spec: the first
produced column of the worked example is a non-overlapping chain. -/
theorem packColumns_spec_witness :
    [{ id := "A", employeeId := "E", date := 0, startTime := 540, endTime := 600, hours := 1 },
     { id := "C", employeeId := "E", date := 0, startTime := 600, endTime := 660, hours := 1 }] ∈
      packColumns
        [{ id := "A", employeeId := "E", date := 0, startTime := 540, endTime := 600, hours := 1 },
         { id := "B", employeeId := "E", date := 0, startTime := 570, endTime := 630, hours := 1 },
         { id := "C", employeeId := "E", date := 0, startTime := 600, endTime := 660, hours := 1 }] ∧
    List.Chain' (fun a b : Shift => a.endTime ≤ b.startTime)
      [{ id := "A", employeeId := "E", date := 0, startTime := 540, endTime := 600, hours := 1 },
       { id := "C", employeeId := "E", date := 0, startTime := 600, endTime := 660, hours := 1 }] :=
  ⟨by decide, packColumns_spec.2.2.2.2.2
    [{ id := "A", employeeId := "E", date := 0, startTime := 540, endTime := 600, hours := 1 },
     { id := "B", employeeId := "E", date := 0, startTime := 570, endTime := 630, hours := 1 },
     { id := "C", employeeId := "E", date := 0, startTime := 600, endTime := 660, hours := 1 }]
    [{ id := "A", employeeId := "E", date := 0, startTime := 540, endTime := 600, hours := 1 },
     { id := "C", employeeId := "E", date := 0, startTime := 600, endTime := 660, hours := 1 }]
    (by decide)⟩

/-! ## C5: move/resize clamp invariant -/

theorem clamp_inv (x y : ℚ) :
    8 ≤ max START_HOUR (min (END_HOUR - 1 / 2) x) ∧
    max START_HOUR (min (END_HOUR - 1 / 2) x) ≤ 45 / 2 ∧
    17 / 2 ≤ max (max START_HOUR (min (END_HOUR - 1 / 2) x) + 1 / 2) (min END_HOUR y) ∧
    max (max START_HOUR (min (END_HOUR - 1 / 2) x) + 1 / 2) (min END_HOUR y) ≤ 23 ∧
    max START_HOUR (min (END_HOUR - 1 / 2) x) + 1 / 2 ≤
      max (max START_HOUR (min (END_HOUR - 1 / 2) x) + 1 / 2) (min END_HOUR y) := by
  have hS : START_HOUR = (8 : ℚ) := rfl
  have hE : END_HOUR = (23 : ℚ) := rfl
  set ns := max START_HOUR (min (END_HOUR - 1 / 2) x) with hns
  have h1 : 8 ≤ ns := by rw [hns, hS]; exact le_max_left _ _
  have h2 : ns ≤ 45 / 2 := by
    rw [hns, hS, hE]
    exact max_le (by norm_num) (le_trans (min_le_left _ _) (by norm_num))
  refine ⟨h1, h2, ?_, ?_, le_max_left _ _⟩
  · calc (17 / 2 : ℚ) = 8 + 1 / 2 := by norm_num
      _ ≤ ns + 1 / 2 := by linarith
      _ ≤ _ := le_max_left _ _
  · refine max_le (by linarith) ?_
    rw [hE]
    exact min_le_left _ _

/-- C5: after every pointer-move of an active move or resize interaction the
live candidate satisfies start in [8, 22.5], end in [8.5, 23] and
end at least start + 0.5 hours — for every interaction kind, every initial
shift interval, every pointer hour and every grab offset. -/
theorem computeDrag_invariant :
    ∀ (t : InteractionType) (initStart initEnd currentHour offset : ℚ),
      8 ≤ (computeDrag t initStart initEnd currentHour offset).1 ∧
      (computeDrag t initStart initEnd currentHour offset).1 ≤ 45 / 2 ∧
      17 / 2 ≤ (computeDrag t initStart initEnd currentHour offset).2 ∧
      (computeDrag t initStart initEnd currentHour offset).2 ≤ 23 ∧
      (computeDrag t initStart initEnd currentHour offset).1 + 1 / 2 ≤
        (computeDrag t initStart initEnd currentHour offset).2 := by
  intro t a b c o
  cases t <;> exact clamp_inv _ _

/-! ## C6: commit-time rejection of end-before-start ranges -/

/-- C6 (evaluation at the failing input): with startTime 17:00 and endTime
09:00 — end strictly before start — the modal commit is not rejected as an
invalid time range: the midnight wrap inside calculateShiftHours yields
16 > 0, the hours-nonpositive guard passes, and the shift is saved. -/
theorem handleSubmit_accepts_end_before_start :
    calculateShiftHours 1020 540 = 16 ∧
    handleSubmit [] none "f1" "e1" 0 1020 540 =
      .saved { id := "f1", employeeId := "e1", date := 0, startTime := 1020,
               endTime := 540, hours := 16 } := by
  have hc : calculateShiftHours 1020 540 = 16 := by
    have h : jsRound (1600 : ℚ) = 1600 := by apply jsRound_eq <;> norm_num
    simp only [calculateShiftHours, roundTwo]
    norm_num [h]
  refine ⟨hc, ?_⟩
  simp only [handleSubmit, hc, Option.getD_none]
  rw [if_neg (by decide : ¬ ("e1" = ""))]
  rw [if_neg (by norm_num : ¬ (16 : ℚ) ≤ 0)]
  rw [if_neg (by decide : ¬ (checkOverlap [] (candidateOf
    { id := "f1", employeeId := "e1", date := 0, startTime := 1020, endTime := 540,
      hours := (16 : ℚ) }) = true))]

/-! ## C7: pixel-to-hour monotonicity and range -/

/-- When the usable height is nonzero the division is finite and
getHourFromY reduces to the pure clamped snap formula. -/
theorem getHourFromY_fin (y h : ℚ) (hh : h - VERTICAL_PADDING * 2 ≠ 0) :
    getHourFromY y h = .fin (max START_HOUR (min END_HOUR
      (((jsRound (((y - VERTICAL_PADDING) / (h - VERTICAL_PADDING * 2) * TOTAL_HOURS
        + START_HOUR) * snapParts) : ℤ) : ℚ) / snapParts))) := by
  simp only [getHourFromY, jsDiv, if_neg hh, JSNum.mulC, JSNum.addC, jsRoundNum,
    JSNum.divC, jsMin, jsMax, snapParts]
  norm_num

/-- At the degenerate height 24 (usableHeight 0), a pointer below the top
padding divides a negative offset by zero: the -Infinity result clamps to
the lower bound 8. -/
theorem getHourFromY_at24_left (y : ℚ) (hy : y < 12) : getHourFromY y 24 = .fin 8 := by
  have h1 : (24 : ℚ) - VERTICAL_PADDING * 2 = 0 := by norm_num [VERTICAL_PADDING]
  have h2 : y - VERTICAL_PADDING < 0 := by
    simp only [VERTICAL_PADDING]
    linarith
  have h3 : ¬ 0 < y - VERTICAL_PADDING := by linarith
  norm_num [getHourFromY, jsDiv, h1, h2, h3, JSNum.mulC, JSNum.addC, jsRoundNum,
    JSNum.divC, jsMin, jsMax, TOTAL_HOURS, START_HOUR, END_HOUR, snapParts,
    min_def, max_def]

/-- At the degenerate height 24, a pointer below the padding offset divides a
positive offset by zero: the +Infinity result clamps to the upper bound 23. -/
theorem getHourFromY_at24_right (y : ℚ) (hy : 12 < y) : getHourFromY y 24 = .fin 23 := by
  have h1 : (24 : ℚ) - VERTICAL_PADDING * 2 = 0 := by norm_num [VERTICAL_PADDING]
  have h2 : 0 < y - VERTICAL_PADDING := by
    simp only [VERTICAL_PADDING]
    linarith
  norm_num [getHourFromY, jsDiv, h1, h2, JSNum.mulC, JSNum.addC, jsRoundNum,
    JSNum.divC, jsMin, jsMax, TOTAL_HOURS, START_HOUR, END_HOUR, snapParts,
    min_def, max_def]

/-- At height 24 and y exactly the 12px padding the code computes 0 / 0:
NaN, which every later operation (round, min, max) propagates. -/
theorem getHourFromY_at24_nan : getHourFromY 12 24 = .nan := by
  norm_num [getHourFromY, jsDiv, VERTICAL_PADDING, JSNum.mulC, JSNum.addC,
    jsRoundNum, JSNum.divC, jsMin, jsMax, TOTAL_HOURS, START_HOUR, END_HOUR, snapParts]

/-- C7 counterexample: the claim fails on both counts for degenerate
container heights. At height 0 the slope is negative and getHourFromY is not
monotone non-decreasing in y (y = -36 maps to 23 while the larger y = 12
maps to 8); and at height 24, y = 12 the 0/0 division makes the result NaN,
which is no number in [8, 23] at all. -/
theorem getHourFromY_not_monotone :
    getHourFromY (-36) 0 = .fin 23 ∧ getHourFromY 12 0 = .fin 8 ∧
    ((-36 : ℚ) ≤ 12) ∧ ¬ (23 : ℚ) ≤ 8 ∧
    getHourFromY 12 24 = .nan := by
  have h76 : jsRound (76 : ℚ) = 76 := by apply jsRound_eq <;> norm_num
  have h16 : jsRound (16 : ℚ) = 16 := by apply jsRound_eq <;> norm_num
  have e1 : getHourFromY (-36) 0 = .fin 23 := by
    rw [getHourFromY_fin (-36) 0 (by norm_num [VERTICAL_PADDING])]
    simp only [START_HOUR, END_HOUR, TOTAL_HOURS, VERTICAL_PADDING, snapParts]
    norm_num [h76, min_def, max_def]
  have e2 : getHourFromY 12 0 = .fin 8 := by
    rw [getHourFromY_fin 12 0 (by norm_num [VERTICAL_PADDING])]
    simp only [START_HOUR, END_HOUR, TOTAL_HOURS, VERTICAL_PADDING, snapParts]
    norm_num [h16, min_def, max_def]
  exact ⟨e1, e2, by norm_num, by norm_num, getHourFromY_at24_nan⟩

/-- C7 amended: for every container height strictly above the 24px consumed
by the vertical padding, getHourFromY is monotone non-decreasing in its
pixel argument (both values being finite); for every y and height other than
the single point height = 24, y = 12 the result is a number in [8, 23]; at
that point it is NaN. -/
theorem getHourFromY_monotone_in_range :
    (∀ (height y₁ y₂ : ℚ), 24 < height → y₁ ≤ y₂ →
      ∃ q₁ q₂ : ℚ, getHourFromY y₁ height = .fin q₁ ∧ getHourFromY y₂ height = .fin q₂ ∧
        q₁ ≤ q₂) ∧
    (∀ (y height : ℚ), ¬ (height = 24 ∧ y = 12) →
      ∃ q : ℚ, getHourFromY y height = .fin q ∧ 8 ≤ q ∧ q ≤ 23) ∧
    getHourFromY 12 24 = .nan := by
  have hpad : (VERTICAL_PADDING * 2 : ℚ) = 24 := by norm_num [VERTICAL_PADDING]
  refine ⟨?_, ?_, getHourFromY_at24_nan⟩
  · intro h y₁ y₂ hh hy
    have hne : h - VERTICAL_PADDING * 2 ≠ 0 := by
      rw [hpad]
      intro hc
      linarith
    refine ⟨_, _, getHourFromY_fin y₁ h hne, getHourFromY_fin y₂ h hne, ?_⟩
    simp only [START_HOUR, END_HOUR, TOTAL_HOURS, VERTICAL_PADDING, snapParts]
    refine max_le_max (le_refl _) (min_le_min (le_refl _) ?_)
    have hu : (0 : ℚ) < h - 12 * 2 := by linarith
    have hdiv : (y₁ - 12) / (h - 12 * 2) ≤ (y₂ - 12) / (h - 12 * 2) := by
      gcongr
    have harg : ((y₁ - 12) / (h - 12 * 2) * (23 - 8) + 8) * 2 ≤
        ((y₂ - 12) / (h - 12 * 2) * (23 - 8) + 8) * 2 := by linarith
    have hc : ((jsRound (((y₁ - 12) / (h - 12 * 2) * (23 - 8) + 8) * 2) : ℤ) : ℚ) ≤
        ((jsRound (((y₂ - 12) / (h - 12 * 2) * (23 - 8) + 8) * 2) : ℤ) : ℚ) :=
      Int.cast_le.mpr (jsRound_mono harg)
    linarith
  · intro y h hex
    by_cases h24 : h = 24
    · subst h24
      have hy12 : y ≠ 12 := fun hy => hex ⟨rfl, hy⟩
      rcases lt_or_gt_of_ne hy12 with hlt | hgt
      · exact ⟨8, getHourFromY_at24_left y hlt, le_refl _, by norm_num⟩
      · exact ⟨23, getHourFromY_at24_right y hgt, by norm_num, le_refl _⟩
    · have hne : h - VERTICAL_PADDING * 2 ≠ 0 := by
        rw [hpad]
        exact sub_ne_zero.mpr h24
      refine ⟨_, getHourFromY_fin y h hne, ?_, ?_⟩
      · simp only [START_HOUR]
        exact le_max_left _ _
      · simp only [START_HOUR, END_HOUR]
        exact max_le (by norm_num) (min_le_left _ _)

/-- Witness for the hypothesis-bearing parts of getHourFromY_monotone_in_range:
a concrete tall container and ordered pixel pair. -/
theorem getHourFromY_monotone_in_range_witness :
    (24 : ℚ) < 624 ∧ (12 : ℚ) ≤ 20 ∧
    (∃ q₁ q₂ : ℚ, getHourFromY 12 624 = .fin q₁ ∧ getHourFromY 20 624 = .fin q₂ ∧
      q₁ ≤ q₂) :=
  ⟨by decide, by decide,
    getHourFromY_monotone_in_range.1 624 12 20 (by decide) (by decide)⟩

/-! ## C8: duration formula on the operating window -/

/-- C8: for every pair of times with start < end, both inside the
[08:00, 23:00] operating window (in minutes since midnight), the computed
duration equals the minute difference divided by 60, rounded to two decimal
places. -/
theorem calculateShiftHours_formula :
    ∀ s e : ℕ, 480 ≤ s → s < e → e ≤ 1380 →
      calculateShiftHours s e = roundTwo ((((e : ℕ) : ℚ) - ((s : ℕ) : ℚ)) / 60) := by
  intro s e h1 h2 h3
  simp only [calculateShiftHours]
  rw [if_neg (by omega : ¬ ((e : ℤ) - (s : ℤ) < 0))]
  congr 1
  push_cast
  ring

/-- Witness for calculateShiftHours_formula at the 09:00-17:00 shift. -/
theorem calculateShiftHours_formula_witness :
    480 ≤ 540 ∧ 540 < 1020 ∧ 1020 ≤ 1380 ∧
    calculateShiftHours 540 1020 = roundTwo ((((1020 : ℕ) : ℚ) - ((540 : ℕ) : ℚ)) / 60) :=
  ⟨by decide, by decide, by decide,
    calculateShiftHours_formula 540 1020 (by decide) (by decide) (by decide)⟩

/-! ## C9: snapping to half hours makes the Selecting commit total -/

theorem clamp_half (m : ℤ) :
    ∃ k : ℤ, max (8 : ℚ) (min 23 ((m : ℚ) / 2)) = (k : ℚ) / 2 := by
  rcases le_total ((m : ℚ) / 2) 23 with h1 | h1
  · rw [min_eq_right h1]
    rcases le_total ((m : ℚ) / 2) 8 with h2 | h2
    · rw [max_eq_left h2]
      exact ⟨16, by norm_num⟩
    · rw [max_eq_right h2]
      exact ⟨m, rfl⟩
  · rw [min_eq_left h1, max_eq_right (by norm_num : (8 : ℚ) ≤ 23)]
    exact ⟨46, by norm_num⟩

theorem selectingMouseUp_halves (a b : ℤ) :
    (selectingMouseUp (.fin ((a : ℚ) / 2)) (.fin ((b : ℚ) / 2))).isSome = true := by
  simp only [selectingMouseUp, jsMin, jsMax, jsSub, jsLe, jsStrictEq]
  rcases lt_trichotomy a b with h | h | h
  · have hq : (a : ℚ) + 1 ≤ (b : ℚ) := by exact_mod_cast h
    have hab : (a : ℚ) / 2 ≤ (b : ℚ) / 2 := by linarith
    rw [min_eq_left hab, max_eq_right hab, if_pos (decide_eq_true (by linarith))]
    rfl
  · subst h
    rw [min_self, max_self, if_neg (by norm_num), if_pos (decide_eq_true rfl)]
    rfl
  · have hq : (b : ℚ) + 1 ≤ (a : ℚ) := by exact_mod_cast h
    have hab : (b : ℚ) / 2 ≤ (a : ℚ) / 2 := by linarith
    rw [min_eq_right hab, max_eq_left hab, if_pos (decide_eq_true (by linarith))]
    rfl

/-- C9 counterexample: at container height 24 and y = 12 getHourFromY
returns NaN — not a half-hour multiple, not a number at all — and a
Selecting session that recorded this value emits nothing on pointer-up:
the extent comparison and the strict equality are both false on NaN, so the
non-emitting branch is reached. -/
theorem selecting_nan_no_emission :
    getHourFromY 12 24 = .nan ∧
    selectingMouseUp (getHourFromY 12 24) (getHourFromY 12 24) = none := by
  refine ⟨getHourFromY_at24_nan, ?_⟩
  rw [getHourFromY_at24_nan]
  simp [selectingMouseUp, jsMin, jsMax, jsSub, jsLe, jsStrictEq]

/-- C9 amended: every numeric value of getHourFromY is an integer multiple
of half an hour (the single non-numeric case being the NaN of height 24,
y = 12); a Selecting commit with numeric recorded hours emits the timed
create request whenever the extent reaches half an hour and the bare-date
request on a zero-extent click; and whenever both recorded hours are
numbers, the pointer-up emits a create request — the silent branch is
reachable only through a NaN recorded hour. -/
theorem getHourFromY_snap_selecting :
    (∀ (y h q : ℚ), getHourFromY y h = .fin q → ∃ k : ℤ, q = (k : ℚ) / 2) ∧
    (∀ a b : ℚ, 1 / 2 ≤ max a b - min a b →
      selectingMouseUp (.fin a) (.fin b) =
        some (.withTimes (.fin (min a b)) (.fin (max a b)))) ∧
    (∀ a : ℚ, selectingMouseUp (.fin a) (.fin a) = some .dateOnly) ∧
    (∀ (y₁ h₁ y₂ h₂ q₁ q₂ : ℚ), getHourFromY y₁ h₁ = .fin q₁ →
      getHourFromY y₂ h₂ = .fin q₂ →
      (selectingMouseUp (.fin q₁) (.fin q₂)).isSome = true) := by
  have hpad : (VERTICAL_PADDING * 2 : ℚ) = 24 := by norm_num [VERTICAL_PADDING]
  have half : ∀ (y h q : ℚ), getHourFromY y h = .fin q → ∃ k : ℤ, q = (k : ℚ) / 2 := by
    intro y h q hq
    by_cases h0 : h - VERTICAL_PADDING * 2 = 0
    · have h24 : h = 24 := by rw [hpad] at h0; linarith
      subst h24
      rcases lt_trichotomy y 12 with hy | hy | hy
      · rw [getHourFromY_at24_left y hy] at hq
        injection hq with h8
        exact ⟨16, by rw [← h8]; norm_num⟩
      · subst hy
        rw [getHourFromY_at24_nan] at hq
        exact absurd hq (by simp)
      · rw [getHourFromY_at24_right y hy] at hq
        injection hq with h23
        exact ⟨46, by rw [← h23]; norm_num⟩
    · rw [getHourFromY_fin y h h0] at hq
      injection hq with hval
      rw [← hval]
      simp only [START_HOUR, END_HOUR, snapParts]
      exact clamp_half _
  refine ⟨half, ?_, ?_, ?_⟩
  · intro a b hext
    simp only [selectingMouseUp, jsMin, jsMax, jsSub, jsLe]
    rw [if_pos (decide_eq_true hext)]
  · intro a
    simp only [selectingMouseUp, jsMin, jsMax, jsSub, jsLe, jsStrictEq]
    rw [min_self, max_self, if_neg (by norm_num)]
    rfl
  · intro y₁ h₁ y₂ h₂ q₁ q₂ hq₁ hq₂
    obtain ⟨k₁, e₁⟩ := half y₁ h₁ q₁ hq₁
    obtain ⟨k₂, e₂⟩ := half y₂ h₂ q₂ hq₂
    rw [e₁, e₂]
    exact selectingMouseUp_halves k₁ k₂

/-- Witness for the hypothesis-bearing parts of getHourFromY_snap_selecting:
a drag over numeric hours from 8 to 9 emits the timed create request. -/
theorem getHourFromY_snap_selecting_witness :
    (1 / 2 : ℚ) ≤ max (9 : ℚ) 8 - min (9 : ℚ) 8 ∧
    selectingMouseUp (.fin 9) (.fin 8) =
      some (.withTimes (.fin (min (9 : ℚ) 8)) (.fin (max (9 : ℚ) 8))) := by
  have hext : (1 / 2 : ℚ) ≤ max (9 : ℚ) 8 - min (9 : ℚ) 8 := by
    rw [max_eq_left (by norm_num : (8 : ℚ) ≤ 9), min_eq_right (by norm_num : (8 : ℚ) ≤ 9)]
    norm_num
  exact ⟨hext, getHourFromY_snap_selecting.2.1 9 8 hext⟩

/-! ## C10: duration is total, non-negative and below 24 hours -/

theorem roundTwo_div60_bounds (d : ℤ) (h0 : 0 ≤ d) (h1 : d ≤ 1439) :
    0 ≤ roundTwo ((d : ℚ) / 60) ∧ roundTwo ((d : ℚ) / 60) < 24 := by
  have hq0 : (0 : ℚ) ≤ (d : ℚ) := by exact_mod_cast h0
  have hq1 : (d : ℚ) ≤ 1439 := by exact_mod_cast h1
  unfold roundTwo jsRound
  constructor
  · have hfl : (0 : ℤ) ≤ ⌊(d : ℚ) / 60 * 100 + 1 / 2⌋ :=
      Int.le_floor.mpr (by push_cast; linarith)
    have : (0 : ℚ) ≤ (⌊(d : ℚ) / 60 * 100 + 1 / 2⌋ : ℚ) := by exact_mod_cast hfl
    linarith
  · have hfl : ⌊(d : ℚ) / 60 * 100 + 1 / 2⌋ < 2400 :=
      Int.floor_lt.mpr (by push_cast; linarith)
    have : (⌊(d : ℚ) / 60 * 100 + 1 / 2⌋ : ℚ) ≤ 2399 := by
      exact_mod_cast Int.lt_add_one_iff.mp hfl
    linarith

theorem roundTwo_div60_pos (d : ℤ) (h : 1 ≤ d) : 0 < roundTwo ((d : ℚ) / 60) := by
  have hq : (1 : ℚ) ≤ (d : ℚ) := by exact_mod_cast h
  unfold roundTwo jsRound
  have hfl : (1 : ℤ) ≤ ⌊(d : ℚ) / 60 * 100 + 1 / 2⌋ :=
    Int.le_floor.mpr (by push_cast; linarith)
  have : (1 : ℚ) ≤ (⌊(d : ℚ) / 60 * 100 + 1 / 2⌋ : ℚ) := by exact_mod_cast hfl
  linarith

theorem roundTwo_zero : roundTwo 0 = 0 := by
  have h0 : jsRound (0 : ℚ) = 0 := by apply jsRound_eq <;> norm_num
  unfold roundTwo
  norm_num [h0]

/-- C10: for all syntactically valid HH:mm inputs (minutes at most 1439) the
result is non-negative and strictly below 24; an end earlier than start is
wrapped by +24h into a strictly positive duration, never a negative or zero
one; equal start and end give exactly 0. -/
theorem calculateShiftHours_wrap_bounds :
    ∀ s e : ℕ, s ≤ 1439 → e ≤ 1439 →
      (0 ≤ calculateShiftHours s e ∧ calculateShiftHours s e < 24) ∧
      (e < s → 0 < calculateShiftHours s e) ∧
      (e = s → calculateShiftHours s e = 0) := by
  intro s e hs he
  simp only [calculateShiftHours]
  by_cases hlt : (e : ℤ) - (s : ℤ) < 0
  · rw [if_pos hlt]
    exact ⟨roundTwo_div60_bounds _ (by omega) (by omega),
      fun _ => roundTwo_div60_pos _ (by omega),
      fun heq => absurd hlt (by omega)⟩
  · rw [if_neg hlt]
    refine ⟨roundTwo_div60_bounds _ (by omega) (by omega),
      fun hlt2 => absurd hlt2 (by omega), fun heq => ?_⟩
    subst heq
    rw [show ((e : ℤ) - (e : ℤ)) = 0 from by omega]
    simpa using roundTwo_zero

/-- Witness for calculateShiftHours_wrap_bounds at the wrapped input 17:00
to 09:00. -/
theorem calculateShiftHours_wrap_bounds_witness :
    (1020 : ℕ) ≤ 1439 ∧ (540 : ℕ) ≤ 1439 ∧ (540 : ℕ) < 1020 ∧
    0 < calculateShiftHours 1020 540 ∧ calculateShiftHours 1020 540 < 24 := by
  have h := calculateShiftHours_wrap_bounds 1020 540 (by decide) (by decide)
  exact ⟨by decide, by decide, by decide, h.2.1 (by decide), h.1.2⟩

end Schedule
